import Mathlib

/-!
Shallow embedding of the HomeWorkCalendar backend (src/server.js): the
assignments table of the SQLite database, the prepared statements, and the
five assignment route handlers. The database table is modelled as a list of
rows in rowid (insertion) order; SQLite constraint failures and better-sqlite3
binding failures surface as `Except` errors. The clock (`CURRENT_TIMESTAMP`,
`Date.now()`, `new Date().toISOString()`) is an explicit `now : Nat` argument,
and the random suffix of generated sync ids is an explicit oracle
`rnd : Nat → String` indexed by the item's position in the payload.
-/

/-- A row of the `assignments` table (schema at src/server.js lines 30-42):
`id TEXT PRIMARY KEY`, `user_id TEXT NOT NULL`, `title/subject/type/due_date
TEXT NOT NULL`, `description TEXT` (nullable), `completed INTEGER DEFAULT 0`,
`created_at`/`updated_at DATETIME DEFAULT CURRENT_TIMESTAMP`. Timestamps are
abstracted to `Nat` clock ticks. -/
structure Row where
  id : String
  user_id : String
  title : String
  subject : String
  type : String
  due_date : String
  description : Option String
  completed : Nat
  created_at : Nat
  updated_at : Nat
deriving Repr, DecidableEq

/-- A JSON request body for an assignment (create, update, or one sync item).
`none` in an outer `Option` means the field is absent (JS `undefined`).
`description` distinguishes absent (`none`) from present-null (`some none`)
from a present string (`some (some s)`), because the update handler tests
`description !== undefined`. `createdAt` is only read by sync. -/
structure Payload where
  id : Option String := none
  title : Option String := none
  subject : Option String := none
  type : Option String := none
  dueDate : Option String := none
  description : Option (Option String) := none
  completed : Option Bool := none
  createdAt : Option Nat := none
deriving Repr, DecidableEq

/-- The record shape returned to clients by `formatAssignment`
(src/server.js lines 272-285); `completed` is a boolean here. -/
structure Output where
  id : String
  title : String
  subject : String
  type : String
  dueDate : String
  description : Option String
  completed : Bool
  createdAt : Nat
  updatedAt : Nat
deriving Repr, DecidableEq

/-- Error kinds surfaced by the route handlers: 400 on failed validation,
404 when `(id, user_id)` matches no row, 500 from the catch blocks around
persistence failures. -/
inductive ApiError where
  | validationError
  | notFound
  | persistenceFailure
deriving Repr, DecidableEq

/-- JS `a || b` for a possibly-absent string: an absent or empty string is
falsy and yields the default. -/
def jsOr : Option String → String → String
  | some s, d => if s = "" then d else s
  | none, d => d

/-- JS falsiness test used by the validation `!title || !subject || ...` and
by the update handler's `title || existing.title`: true when the field is
absent or the empty string. -/
def jsFalsy : Option String → Bool
  | some s => s == ""
  | none => true

/-- JS `description || null` as used by create and sync: absent, null and
the empty string all collapse to null. -/
def jsOrNull : Option (Option String) → Option String
  | some (some s) => if s = "" then none else some s
  | some none => none
  | none => none

/-- JS `completed ? 1 : 0`: an absent flag is falsy and stores 0. -/
def jsCompleted : Option Bool → Nat
  | some b => if b then 1 else 0
  | none => 0

namespace statements

/-- Statement `getAssignments` (src/server.js line 62):
`SELECT * FROM assignments WHERE user_id = ? ORDER BY due_date ASC`.
SQLite scans the `idx_assignments_due_date` index, whose entries with equal
`due_date` are ordered by rowid, so the result is the user's rows stably
sorted by due date with ties in insertion order; modelled as a stable
insertion sort of the filtered table. -/
def getAssignments (st : List Row) (uid : String) : List Row :=
  List.insertionSort (fun a b => a.due_date ≤ b.due_date)
    (st.filter (fun r => r.user_id == uid))

/-- Statement `getAssignment` (src/server.js line 64):
`SELECT * FROM assignments WHERE id = ? AND user_id = ?`. -/
def getAssignment (st : List Row) (id uid : String) : Option Row :=
  st.find? (fun r => r.id == id && r.user_id == uid)

/-- Statement `insertAssignment` (src/server.js lines 66-69): a plain
`INSERT`; fails when the `id TEXT PRIMARY KEY` constraint is violated, i.e.
when any row of the table (any user's) already has this id. The new row gets
the largest rowid, hence goes to the end of the list. -/
def insertAssignment (st : List Row) (row : Row) : Except Unit (List Row) :=
  if st.any (fun r => r.id == row.id) then .error ()
  else .ok (st ++ [row])

/-- Statement `updateAssignment` (src/server.js lines 71-75): sets all six
payload columns and `updated_at = CURRENT_TIMESTAMP` on every row matching
`WHERE id = ? AND user_id = ?`; rowids are unchanged. -/
def updateAssignment (st : List Row) (title subject ty due : String)
    (desc : Option String) (comp : Nat) (id uid : String) (now : Nat) :
    List Row :=
  st.map (fun r =>
    if r.id == id && r.user_id == uid then
      { r with title := title, subject := subject, type := ty, due_date := due,
               description := desc, completed := comp, updated_at := now }
    else r)

/-- Statement `deleteAssignment` (src/server.js line 77):
`DELETE FROM assignments WHERE id = ? AND user_id = ?`. -/
def deleteAssignment (st : List Row) (id uid : String) : List Row :=
  st.filter (fun r => !(r.id == id && r.user_id == uid))

/-- Statement `deleteAllAssignments` (src/server.js line 79):
`DELETE FROM assignments WHERE user_id = ?`. -/
def deleteAllAssignments (st : List Row) (uid : String) : List Row :=
  st.filter (fun r => !(r.user_id == uid))

end statements

/-- The row a sync item becomes (arguments of `bulkInsertAssignment.run`,
src/server.js lines 247-257): `description || null`, `completed ? 1 : 0`,
`createdAt` from the payload or the current time, `updated_at` from the
column's `CURRENT_TIMESTAMP` default. The required text columns are read
only when present (see `statements.bulkInsertAssignment`). -/
def itemRow (uid : String) (now : Nat) (aid : String) (a : Payload) : Row :=
  { id := aid, user_id := uid,
    title := a.title.getD "", subject := a.subject.getD "",
    type := a.type.getD "", due_date := a.dueDate.getD "",
    description := jsOrNull a.description,
    completed := jsCompleted a.completed,
    created_at := a.createdAt.getD now, updated_at := now }

namespace statements

/-- Statement `bulkInsertAssignment` (src/server.js lines 81-84):
`INSERT OR REPLACE INTO assignments (...)`. On a primary-key conflict the
conflicting row is deleted — whichever user owns it — and the new row is
inserted with a fresh (largest) rowid. An absent required field binds NULL
(or fails to bind), violating `NOT NULL`, so the statement errors. -/
def bulkInsertAssignment (st : List Row) (aid uid : String) (a : Payload)
    (now : Nat) : Except Unit (List Row) :=
  if a.title.isSome && a.subject.isSome && a.type.isSome && a.dueDate.isSome then
    .ok ((st.filter (fun r => !(r.id == aid))) ++ [itemRow uid now aid a])
  else
    .error ()

end statements

/-- Helper `formatAssignment` (src/server.js lines 272-285) on a present row:
renames snake_case columns and turns the stored 0/1 flag into a boolean via
`row.completed === 1`. The JS null-guard for an absent row is expressed at
call sites by `Option.map formatAssignment`. -/
def formatAssignment (row : Row) : Output :=
  { id := row.id, title := row.title, subject := row.subject,
    type := row.type, dueDate := row.due_date,
    description := row.description,
    completed := row.completed == 1,
    createdAt := row.created_at, updatedAt := row.updated_at }

/-- Handler of `GET /api/assignments` (src/server.js lines 143-151): a pure
read returning the user's rows through `formatAssignment`; the state is
returned unchanged to make the absence of side effects explicit. -/
def listAssignments (st : List Row) (uid : String) : List Row × List Output :=
  (st, (statements.getAssignments st uid).map formatAssignment)

/-- The row the create handler inserts (src/server.js lines 162-173): the id
is `id || Date.now().toString()` (a falsy supplied id also falls back to the
time-based one), `description || null`, `completed ? 1 : 0`, and both
timestamp columns take their `CURRENT_TIMESTAMP` default. -/
def createdRow (uid : String) (p : Payload) (now : Nat) : Row :=
  { id := jsOr p.id (toString now), user_id := uid,
    title := p.title.getD "", subject := p.subject.getD "",
    type := p.type.getD "", due_date := p.dueDate.getD "",
    description := jsOrNull p.description,
    completed := jsCompleted p.completed,
    created_at := now, updated_at := now }

/-- Handler of `POST /api/assignments` (src/server.js lines 154-181):
validates the four required fields with JS falsiness, resolves the id as
`id || Date.now().toString()`, runs the plain insert (whose primary-key
failure is caught and surfaced as a 500), then re-reads and formats the
created row. -/
def createAssignment (st : List Row) (uid : String) (p : Payload) (now : Nat) :
    List Row × Except ApiError (Option Output) :=
  if jsFalsy p.title || jsFalsy p.subject || jsFalsy p.type || jsFalsy p.dueDate then
    (st, .error .validationError)
  else
    match statements.insertAssignment st (createdRow uid p now) with
    | .ok st' =>
        (st', .ok ((statements.getAssignment st' (createdRow uid p now).id uid).map
          formatAssignment))
    | .error _ => (st, .error .persistenceFailure)

/-- Handler of `PUT /api/assignments/:id` (src/server.js lines 184-211):
404 when `(id, user_id)` matches nothing; otherwise merges the payload over
the existing row — `field || existing.field` for the four required strings,
`!== undefined` tests for `description` and `completed` — runs the UPDATE and
returns the re-read merged row. -/
def updateAssignment (st : List Row) (uid id : String) (p : Payload) (now : Nat) :
    List Row × Except ApiError (Option Output) :=
  match statements.getAssignment st id uid with
  | none => (st, .error .notFound)
  | some existing =>
      let st' := statements.updateAssignment st
        (jsOr p.title existing.title) (jsOr p.subject existing.subject)
        (jsOr p.type existing.type) (jsOr p.dueDate existing.due_date)
        (match p.description with | some v => v | none => existing.description)
        (match p.completed with | some b => if b then 1 else 0 | none => existing.completed)
        id uid now
      (st', .ok ((statements.getAssignment st' id uid).map formatAssignment))

/-- Handler of `DELETE /api/assignments/:id` (src/server.js lines 214-229):
404 when `(id, user_id)` matches nothing; otherwise runs the scoped DELETE
and acknowledges with `{success: true}`. -/
def deleteAssignment (st : List Row) (uid id : String) :
    List Row × Except ApiError Unit :=
  match statements.getAssignment st id uid with
  | none => (st, .error .notFound)
  | some _ => (statements.deleteAssignment st id uid, .ok ())

/-- Body of the sync loop (src/server.js lines 246-258): insert each item in
order with `INSERT OR REPLACE`, the id resolved as
`a.id || Date.now().toString() + Math.random()...` — the random suffix is the
oracle `rnd` applied to the item's index `k`. An error aborts the loop. -/
def syncLoop (uid : String) (now : Nat) (rnd : Nat → String) :
    List Row → List Payload → Nat → Except Unit (List Row)
  | st, [], _ => .ok st
  | st, a :: rest, k =>
      match statements.bulkInsertAssignment st (jsOr a.id (toString now ++ rnd k)) uid a now with
      | .ok st' => syncLoop uid now rnd st' rest (k + 1)
      | .error e => .error e

/-- The `syncTransaction` (src/server.js lines 241-259): delete all of the
user's rows, then insert every payload item. better-sqlite3 wraps this in a
single transaction, so an error anywhere inside rolls the whole thing back;
the `Except` result carries either the committed state or the error. -/
def syncTransaction (st : List Row) (uid : String) (items : List Payload)
    (now : Nat) (rnd : Nat → String) : Except Unit (List Row) :=
  syncLoop uid now rnd (statements.deleteAllAssignments st uid) items 0

/-- Handler of `POST /api/assignments/sync` (src/server.js lines 232-269):
400 unless the body's `assignments` is an array; then the transaction runs —
on an exception it has rolled back (state unchanged) and the catch answers
500; on success the user's rows are re-read and returned. -/
def syncAssignments (st : List Row) (uid : String) (body : Option (List Payload))
    (now : Nat) (rnd : Nat → String) :
    List Row × Except ApiError (List Output) :=
  match body with
  | none => (st, .error .validationError)
  | some items =>
      match syncTransaction st uid items now rnd with
      | .ok st' => (st', .ok ((statements.getAssignments st' uid).map formatAssignment))
      | .error _ => (st, .error .persistenceFailure)

/-- The row the update handler's UPDATE leaves behind for the matched record
`ex` (src/server.js lines 194-203): `field || existing.field` for the four
required strings, `!== undefined` merges for `description` and `completed`,
`updated_at` refreshed; `id`, `user_id` and `created_at` are untouched. -/
def mergedRow (ex : Row) (p : Payload) (now : Nat) : Row :=
  { ex with
    title := jsOr p.title ex.title,
    subject := jsOr p.subject ex.subject,
    type := jsOr p.type ex.type,
    due_date := jsOr p.dueDate ex.due_date,
    description := match p.description with | some v => v | none => ex.description,
    completed := match p.completed with | some b => if b then 1 else 0 | none => ex.completed,
    updated_at := now }

/-- The ids the sync loop resolves for the items starting at index `k`:
`a.id || Date.now().toString() + Math.random()...` per item. -/
def resolvedIds (now : Nat) (rnd : Nat → String) : List Payload → Nat → List String
  | [], _ => []
  | a :: rest, k => jsOr a.id (toString now ++ rnd k) :: resolvedIds now rnd rest (k + 1)

/-- The rows the sync loop inserts for the items starting at index `k`, in
payload order. -/
def syncRows (uid : String) (now : Nat) (rnd : Nat → String) :
    List Payload → Nat → List Row
  | [], _ => []
  | a :: rest, k =>
      itemRow uid now (jsOr a.id (toString now ++ rnd k)) a
        :: syncRows uid now rnd rest (k + 1)

/-- An assignment row owned by user B, id "x". -/
def rowOfB : Row :=
  { id := "x", user_id := "B", title := "essay", subject := "english",
    type := "homework", due_date := "2024-06-01", description := none,
    completed := 0, created_at := 1, updated_at := 1 }

/-- A valid payload whose id collides with `rowOfB`. -/
def collidingItem : Payload :=
  { id := some "x", title := some "algebra", subject := some "math",
    type := some "test", dueDate := some "2024-07-01" }

/-- A sync item with no title: its insert binds NULL into a NOT NULL column
and fails. -/
def badItem : Payload :=
  { id := some "y", subject := some "math",
    type := some "test", dueDate := some "2024-07-01" }

/-- The spec's create scenario payload, with `completed` absent. -/
def essayPayload : Payload :=
  { title := some "Essay", subject := some "English",
    type := some "homework", dueDate := some "2024-06-01" }

/-- Two valid sync items sharing the id "x". -/
def dupItemA : Payload :=
  { id := some "x", title := some "first", subject := some "math",
    type := some "test", dueDate := some "2024-07-01" }

/-- Second sync item with the same id as `dupItemA`. -/
def dupItemB : Payload :=
  { id := some "x", title := some "second", subject := some "math",
    type := some "test", dueDate := some "2024-07-01" }

/-- Three assignments owned by user "u", with distinct ids. -/
def threeRows : List Row :=
  [ { id := "a", user_id := "u", title := "t1", subject := "s1",
      type := "homework", due_date := "2024-01-01", description := none,
      completed := 0, created_at := 1, updated_at := 1 },
    { id := "b", user_id := "u", title := "t2", subject := "s2",
      type := "homework", due_date := "2024-02-01", description := none,
      completed := 1, created_at := 2, updated_at := 2 },
    { id := "c", user_id := "u", title := "t3", subject := "s3",
      type := "homework", due_date := "2024-03-01", description := none,
      completed := 0, created_at := 3, updated_at := 3 } ]

/-- A single valid sync item with a fresh id. -/
def oneItem : Payload :=
  { id := some "n", title := some "only", subject := some "math",
    type := some "test", dueDate := some "2024-07-01" }

/-- Mapping a conditional rewrite over a list moves `find?` through it: the
first match is rewritten and stays the first match, provided the rewrite
preserves the predicate. -/
theorem find?_map_if {α : Type} (q : α → Bool) (f : α → α)
    (hf : ∀ r, q r = true → q (f r) = true)
    (st : List α) : ∀ ex : α, st.find? q = some ex →
      (st.map (fun r => if q r then f r else r)).find? q = some (f ex) := by
  induction st with
  | nil => intro ex h; simp at h
  | cons a l ih =>
    intro ex h
    by_cases ha : q a = true
    · rw [List.find?_cons_of_pos _ ha] at h
      injection h with h
      subst h
      rw [List.map_cons, if_pos ha, List.find?_cons_of_pos _ (hf a ha)]
    · rw [List.find?_cons_of_neg _ ha] at h
      rw [List.map_cons, if_neg ha, List.find?_cons_of_neg _ ha]
      exact ih ex h

/-- When nothing in the first list matches, `find?` over an append searches
the second list. -/
theorem find?_append_of_none {α : Type} (p : α → Bool) (l₂ : List α) :
    ∀ l₁ : List α, l₁.find? p = none → (l₁ ++ l₂).find? p = l₂.find? p := by
  intro l₁
  induction l₁ with
  | nil => intro _; rfl
  | cons a l ih =>
    intro h
    by_cases ha : p a = true
    · rw [List.find?_cons_of_pos _ ha] at h; exact absurd h (by simp)
    · rw [List.find?_cons_of_neg _ ha] at h
      rw [List.cons_append, List.find?_cons_of_neg _ ha]
      exact ih h

/-- Inserting a row into a list with `orderedInsert` on due dates places it
before every row with the same due date, so the per-due-date subsequence
gains the row at the front (or is untouched when the date differs). -/
theorem filter_orderedInsert_due (d : String) (a : Row) :
    ∀ m : List Row,
      (List.orderedInsert (fun x y => x.due_date ≤ y.due_date) a m).filter
          (fun r => r.due_date == d)
        = if a.due_date == d
            then a :: m.filter (fun r => r.due_date == d)
            else m.filter (fun r => r.due_date == d) := by
  intro m
  induction m with
  | nil =>
    by_cases had : a.due_date = d <;>
      simp [List.orderedInsert, List.filter_cons, had]
  | cons b l ih =>
    by_cases hab : a.due_date ≤ b.due_date
    · rw [List.orderedInsert, if_pos hab]
      by_cases had : a.due_date = d <;>
        simp [List.filter_cons, had]
    · rw [List.orderedInsert, if_neg hab, List.filter_cons, ih]
      by_cases had : a.due_date = d
      · have hbd : ¬ b.due_date = d := by
          intro hbd
          exact hab (le_of_eq (had.trans hbd.symm))
        simp [List.filter_cons, had, hbd]
      · by_cases hbd : b.due_date = d <;>
          simp [List.filter_cons, had, hbd]

/-- Stability of the listing order: sorting by due date does not reorder the
rows sharing any one due date. -/
theorem filter_insertionSort_due (d : String) :
    ∀ l : List Row,
      (List.insertionSort (fun x y => x.due_date ≤ y.due_date) l).filter
          (fun r => r.due_date == d)
        = l.filter (fun r => r.due_date == d) := by
  intro l
  induction l with
  | nil => rfl
  | cons a l ih =>
    rw [List.insertionSort, filter_orderedInsert_due, ih]
    by_cases had : a.due_date = d <;> simp [List.filter_cons, had]

/-- Under the primary-key invariant (no two rows share an id), the rows
matching a `(id, user_id)` lookup that finds `ex` are exactly `[ex]`. -/
theorem filter_match_eq_single (id uid : String) :
    ∀ st : List Row, (st.map Row.id).Nodup →
      ∀ ex : Row, st.find? (fun r => r.id == id && r.user_id == uid) = some ex →
        st.filter (fun r => r.id == id && r.user_id == uid) = [ex] := by
  intro st
  induction st with
  | nil => intro _ ex h; simp at h
  | cons a l ih =>
    intro hn ex h
    rw [List.map_cons, List.nodup_cons] at hn
    by_cases ha : (a.id == id && a.user_id == uid) = true
    · rw [@List.find?_cons_of_pos _ (fun r => r.id == id && r.user_id == uid) a l ha] at h
      injection h with h
      subst h
      rw [@List.filter_cons_of_pos _ (fun r => r.id == id && r.user_id == uid) a l ha]
      have hnil : l.filter (fun r => r.id == id && r.user_id == uid) = [] := by
        rw [List.filter_eq_nil_iff]
        intro r hr hq
        simp only [Bool.and_eq_true, beq_iff_eq] at ha hq
        exact hn.1 (hq.1.trans ha.1.symm ▸ List.mem_map_of_mem Row.id hr)
      rw [hnil]
    · rw [@List.find?_cons_of_neg _ (fun r => r.id == id && r.user_id == uid) a l ha] at h
      rw [@List.filter_cons_of_neg _ (fun r => r.id == id && r.user_id == uid) a l ha]
      exact ih hn.2 ex h

/-- On any successful create, the table gains exactly the created row at the
end and the response is that row formatted. -/
theorem createAssignment_ok (st : List Row) (uid : String) (p : Payload)
    (now : Nat) (out : Option Output)
    (h : (createAssignment st uid p now).2 = .ok out) :
    (createAssignment st uid p now).1 = st ++ [createdRow uid p now]
      ∧ out = some (formatAssignment (createdRow uid p now)) := by
  by_cases hv : (jsFalsy p.title || jsFalsy p.subject || jsFalsy p.type || jsFalsy p.dueDate) = true
  · rw [createAssignment, if_pos hv] at h
    exact absurd h (by simp)
  · by_cases hany : st.any (fun r => r.id == (createdRow uid p now).id) = true
    · rw [createAssignment, if_neg hv, statements.insertAssignment, if_pos hany] at h
      exact absurd h (by simp)
    · rw [createAssignment, if_neg hv, statements.insertAssignment, if_neg hany] at h ⊢
      dsimp only at h ⊢
      have hfind : statements.getAssignment (st ++ [createdRow uid p now])
          (createdRow uid p now).id uid = some (createdRow uid p now) := by
        rw [statements.getAssignment]
        rw [find?_append_of_none]
        · rw [List.find?_cons_of_pos]
          simp [createdRow]
        · rw [List.find?_eq_none]
          intro r hr hq
          simp only [Bool.and_eq_true] at hq
          rw [List.any_eq_true] at hany
          push_neg at hany
          exact absurd hq.1 (by simpa using hany r hr)
      rw [hfind] at h
      injection h with h
      exact ⟨rfl, h.symm⟩

/-- The sync loop plans one row per payload item. -/
theorem syncRows_length (uid : String) (now : Nat) (rnd : Nat → String) :
    ∀ (items : List Payload) (k : Nat),
      (syncRows uid now rnd items k).length = items.length := by
  intro items
  induction items with
  | nil => intro k; rfl
  | cons a rest ih => intro k; simp [syncRows, ih (k + 1)]

/-- Invariant of the sync loop: when every resolved id is fresh (no duplicate
among the remaining items, none colliding with a row of this user already in
the table), a successful run appends exactly one row per item to the user's
set. -/
theorem syncLoop_filter (uid : String) (now : Nat) (rnd : Nat → String) :
    ∀ (items : List Payload) (k : Nat) (st st' : List Row),
      syncLoop uid now rnd st items k = .ok st' →
      (resolvedIds now rnd items k).Nodup →
      (∀ r ∈ st, r.user_id = uid → r.id ∉ resolvedIds now rnd items k) →
      st'.filter (fun r => r.user_id == uid)
        = st.filter (fun r => r.user_id == uid) ++ syncRows uid now rnd items k := by
  intro items
  induction items with
  | nil =>
    intro k st st' h _ _
    rw [syncLoop] at h
    injection h with h
    subst h
    simp [syncRows]
  | cons a rest ih =>
    intro k st st' h hnd hdisj
    rw [syncLoop] at h
    by_cases hfields : (a.title.isSome && a.subject.isSome && a.type.isSome
        && a.dueDate.isSome) = true
    · rw [statements.bulkInsertAssignment, if_pos hfields] at h
      dsimp only at h
      rw [resolvedIds, List.nodup_cons] at hnd
      have hdisj' : ∀ r ∈ (st.filter
            (fun r => !(r.id == jsOr a.id (toString now ++ rnd k))))
            ++ [itemRow uid now (jsOr a.id (toString now ++ rnd k)) a],
          r.user_id = uid → r.id ∉ resolvedIds now rnd rest (k + 1) := by
        intro r hr hu
        rcases List.mem_append.mp hr with hr | hr
        · have hrst := List.mem_of_mem_filter hr
          have := hdisj r hrst hu
          rw [resolvedIds] at this
          intro hmem
          exact this (List.mem_cons_of_mem _ hmem)
        · rw [List.mem_singleton] at hr
          subst hr
          exact hnd.1
      have hstep := ih (k + 1) _ st' h hnd.2 hdisj'
      rw [List.filter_append] at hstep
      have hsingle : List.filter (fun r => r.user_id == uid)
          [itemRow uid now (jsOr a.id (toString now ++ rnd k)) a]
          = [itemRow uid now (jsOr a.id (toString now ++ rnd k)) a] := by
        simp [itemRow]
      have hcomm : (st.filter
            (fun r => !(r.id == jsOr a.id (toString now ++ rnd k)))).filter
            (fun r => r.user_id == uid)
          = st.filter (fun r => r.user_id == uid) := by
        rw [List.filter_filter]
        apply List.filter_congr
        intro r hr
        by_cases hu : (r.user_id == uid) = true
        · have : r.id ∉ resolvedIds now rnd (a :: rest) k :=
            hdisj r hr (by simpa using hu)
          rw [resolvedIds, List.mem_cons] at this
          push_neg at this
          have hid : (r.id == jsOr a.id (toString now ++ rnd k)) = false := by
            simpa using this.1
          simp [hu, hid]
        · simp [Bool.eq_false_iff.mpr hu]
      rw [hsingle, hcomm] at hstep
      rw [hstep, syncRows]
      rw [List.append_assoc]
      rfl
    · rw [statements.bulkInsertAssignment, if_neg hfields] at h
      exact absurd h (by simp)

/-- C3: sync is atomic on failure — whenever the sync handler answers with an
error (bad body shape, or any insert failing inside the transaction), the
table is exactly the pre-sync table: no partial delete or partial insert is
ever persisted, and the caller receives the error. -/
theorem c3_sync_atomic_on_failure (st : List Row) (uid : String)
    (body : Option (List Payload)) (now : Nat) (rnd : Nat → String)
    (st' : List Row) (e : ApiError)
    (h : syncAssignments st uid body now rnd = (st', .error e)) : st' = st := by
  cases body with
  | none =>
    rw [syncAssignments] at h
    injection h with h1 h2
    exact h1.symm
  | some items =>
    rw [syncAssignments] at h
    rcases hs : syncTransaction st uid items now rnd with e' | st₂
    · rw [hs] at h
      dsimp only at h
      injection h with h1 h2
      exact h1.symm
    · rw [hs] at h
      dsimp only at h
      injection h with h1 h2
      exact absurd h2 (by simp)

/-- Witness for C3: a sync of user "u" whose second item lacks a title fails,
and the three pre-sync rows survive untouched. -/
theorem c3_sync_atomic_on_failure_witness :
    (syncAssignments threeRows "u" (some [oneItem, badItem]) 9 (fun _ => "r")).1
      = threeRows :=
  c3_sync_atomic_on_failure threeRows "u" (some [oneItem, badItem]) 9
    (fun _ => "r")
    ((syncAssignments threeRows "u" (some [oneItem, badItem]) 9 (fun _ => "r")).1)
    ApiError.persistenceFailure rfl

/-- C9: the listing is a side-effect-free read returning exactly the user's
rows, sorted by due date ascending, and stable — rows sharing a due date keep
their insertion order. -/
theorem c9_list_ordering (st : List Row) (uid : String) :
    (listAssignments st uid).1 = st
    ∧ (listAssignments st uid).2
        = (statements.getAssignments st uid).map formatAssignment
    ∧ List.Sorted (fun a b : Row => a.due_date ≤ b.due_date)
        (statements.getAssignments st uid)
    ∧ (statements.getAssignments st uid).Perm
        (st.filter (fun r => r.user_id == uid))
    ∧ ∀ d : String,
        (statements.getAssignments st uid).filter (fun r => r.due_date == d)
          = (st.filter (fun r => r.user_id == uid)).filter
              (fun r => r.due_date == d) := by
  refine ⟨rfl, rfl, ?_, ?_, ?_⟩
  · haveI ht : IsTotal Row (fun a b : Row => a.due_date ≤ b.due_date) :=
      ⟨fun a b => le_total a.due_date b.due_date⟩
    haveI htr : IsTrans Row (fun a b : Row => a.due_date ≤ b.due_date) :=
      ⟨fun a b c h₁ h₂ => le_trans h₁ h₂⟩
    exact List.sorted_insertionSort _ _
  · exact List.perm_insertionSort _ _
  · intro d
    exact filter_insertionSort_due d _

/-- C8: the 0/1 flag is translated to a boolean at the boundary — a formatted
record's `completed` is true exactly when the stored flag is 1, the listing
returns only formatted records, and a create without `completed` comes back
with `completed = false`. -/
theorem c8_completed_boolean :
    (∀ row : Row, (formatAssignment row).completed = true ↔ row.completed = 1)
    ∧ (∀ (st : List Row) (uid : String),
        (listAssignments st uid).2
          = (statements.getAssignments st uid).map formatAssignment)
    ∧ (∀ (st : List Row) (uid : String) (p : Payload) (now : Nat)
        (out : Option Output), p.completed = none →
        (createAssignment st uid p now).2 = .ok out →
        out = some (formatAssignment (createdRow uid p now))
          ∧ (formatAssignment (createdRow uid p now)).completed = false) := by
  refine ⟨?_, fun st uid => rfl, ?_⟩
  · intro row
    simp [formatAssignment]
  · intro st uid p now out hc h
    refine ⟨(createAssignment_ok st uid p now out h).2, ?_⟩
    simp [formatAssignment, createdRow, jsCompleted, hc]

/-- Witness for C8: the spec's create scenario — `completed` absent — returns
a record with boolean `completed = false`. -/
theorem c8_completed_boolean_witness :
    some (formatAssignment (createdRow "u" essayPayload 5))
        = some (formatAssignment (createdRow "u" essayPayload 5))
      ∧ (formatAssignment (createdRow "u" essayPayload 5)).completed = false :=
  c8_completed_boolean.2.2 [] "u" essayPayload 5
    (some (formatAssignment (createdRow "u" essayPayload 5))) rfl rfl

/-- C6: the create handler answers `ValidationError` exactly when one of
title, subject, type, dueDate is absent or empty; on that failure the table
is untouched, and on success the table gains exactly the created row (with
server-assigned timestamps), which is also the response. -/
theorem c6_create_validation (st : List Row) (uid : String) (p : Payload)
    (now : Nat) :
    ((createAssignment st uid p now).2 = .error .validationError
      ↔ (jsFalsy p.title || jsFalsy p.subject || jsFalsy p.type
          || jsFalsy p.dueDate) = true)
    ∧ ((jsFalsy p.title || jsFalsy p.subject || jsFalsy p.type
          || jsFalsy p.dueDate) = true → (createAssignment st uid p now).1 = st)
    ∧ (∀ out : Option Output, (createAssignment st uid p now).2 = .ok out →
        (createAssignment st uid p now).1 = st ++ [createdRow uid p now]
          ∧ out = some (formatAssignment (createdRow uid p now))) := by
  refine ⟨?_, ?_, fun out h => createAssignment_ok st uid p now out h⟩
  · by_cases hv : (jsFalsy p.title || jsFalsy p.subject || jsFalsy p.type
        || jsFalsy p.dueDate) = true
    · rw [createAssignment, if_pos hv]
      exact iff_of_true rfl hv
    · rcases hi : statements.insertAssignment st (createdRow uid p now)
        with e | st₁ <;>
      · rw [createAssignment, if_neg hv, hi]
        exact iff_of_false (by simp) hv
  · intro hv
    rw [createAssignment, if_pos hv]

/-- Witness for C6: an empty payload is rejected with `ValidationError`. -/
theorem c6_create_validation_witness :
    (createAssignment [] "u" ({} : Payload) 5).2
      = Except.error ApiError.validationError :=
  (c6_create_validation [] "u" ({} : Payload) 5).1.mpr rfl

/-- C4: update is a partial merge — on an existing `(id, userId)` record the
response is the merged record, every field absent from the payload keeps its
prior value, `updated_at` is set to the current time even when nothing else
changes (so it strictly advances whenever the clock has), the empty payload
changes nothing but `updated_at`, and a completed-only payload changes only
`completed` and `updated_at`. -/
theorem c4_update_partial_merge (st : List Row) (uid id : String) (p : Payload)
    (now : Nat) (ex : Row)
    (hex : statements.getAssignment st id uid = some ex) :
    (updateAssignment st uid id p now).2
        = .ok (some (formatAssignment (mergedRow ex p now)))
    ∧ (p.title = none → (mergedRow ex p now).title = ex.title)
    ∧ (p.subject = none → (mergedRow ex p now).subject = ex.subject)
    ∧ (p.type = none → (mergedRow ex p now).type = ex.type)
    ∧ (p.dueDate = none → (mergedRow ex p now).due_date = ex.due_date)
    ∧ (p.description = none → (mergedRow ex p now).description = ex.description)
    ∧ (p.completed = none → (mergedRow ex p now).completed = ex.completed)
    ∧ (mergedRow ex p now).updated_at = now
    ∧ (ex.updated_at < now → ex.updated_at < (mergedRow ex p now).updated_at)
    ∧ (p = ({} : Payload) → mergedRow ex p now = { ex with updated_at := now })
    ∧ (∀ b : Bool, p = { completed := some b } →
        mergedRow ex p now
          = { ex with completed := if b then 1 else 0, updated_at := now }) := by
  refine ⟨?_,
    fun h => by simp [mergedRow, jsOr, h],
    fun h => by simp [mergedRow, jsOr, h],
    fun h => by simp [mergedRow, jsOr, h],
    fun h => by simp [mergedRow, jsOr, h],
    fun h => by simp [mergedRow, h],
    fun h => by simp [mergedRow, h],
    rfl,
    fun h => h,
    fun h => by subst h; rfl,
    fun b h => by subst h; rfl⟩
  rw [updateAssignment, hex]
  dsimp only
  have hex' : List.find? (fun r => r.id == id && r.user_id == uid) st = some ex :=
    hex
  have hfind := find?_map_if (fun r => r.id == id && r.user_id == uid)
    (fun r =>
      { r with title := jsOr p.title ex.title,
               subject := jsOr p.subject ex.subject,
               type := jsOr p.type ex.type,
               due_date := jsOr p.dueDate ex.due_date,
               description :=
                 match p.description with | some v => v | none => ex.description,
               completed :=
                 match p.completed with
                 | some b => if b then 1 else 0
                 | none => ex.completed,
               updated_at := now })
    (fun r hq => hq) st ex hex'
  have hget : statements.getAssignment (statements.updateAssignment st
      (jsOr p.title ex.title) (jsOr p.subject ex.subject) (jsOr p.type ex.type)
      (jsOr p.dueDate ex.due_date)
      (match p.description with | some v => v | none => ex.description)
      (match p.completed with | some b => if b then 1 else 0 | none => ex.completed)
      id uid now) id uid = some (mergedRow ex p now) := hfind
  rw [hget]
  rfl

/-- Witness for C4: updating only `completed` on user B's record answers with
the merged record. -/
theorem c4_update_partial_merge_witness :
    (updateAssignment [rowOfB] "B" "x" { completed := some true } 7).2
      = .ok (some (formatAssignment (mergedRow rowOfB { completed := some true } 7))) :=
  (c4_update_partial_merge [rowOfB] "B" "x" { completed := some true } 7
    rowOfB rfl).1

/-- C10: the merge is asymmetric — for the four required string fields a
present-but-falsy value (the empty string) is treated exactly like an absent
field and the prior value is retained, whereas a present `description` or
`completed` is always applied, including `description` set to null or empty
and `completed: false`. -/
theorem c10_update_merge_asymmetry (st : List Row) (uid id : String)
    (p : Payload) (now : Nat) (ex : Row)
    (hex : statements.getAssignment st id uid = some ex) :
    (p.title = some "" → (mergedRow ex p now).title = ex.title
        ∧ updateAssignment st uid id p now
            = updateAssignment st uid id { p with title := none } now)
    ∧ (p.subject = some "" → (mergedRow ex p now).subject = ex.subject)
    ∧ (p.type = some "" → (mergedRow ex p now).type = ex.type)
    ∧ (p.dueDate = some "" → (mergedRow ex p now).due_date = ex.due_date)
    ∧ (∀ v : Option String, p.description = some v →
        (mergedRow ex p now).description = v)
    ∧ (∀ b : Bool, p.completed = some b →
        (mergedRow ex p now).completed = if b then 1 else 0) := by
  refine ⟨fun h => ⟨by simp [mergedRow, jsOr, h], ?_⟩,
    fun h => by simp [mergedRow, jsOr, h],
    fun h => by simp [mergedRow, jsOr, h],
    fun h => by simp [mergedRow, jsOr, h],
    fun v h => by simp [mergedRow, h],
    fun b h => by simp [mergedRow, h]⟩
  rw [updateAssignment, updateAssignment, hex]
  dsimp only
  rw [h]
  simp [jsOr]

/-- Witness for C10: an empty-string title is ignored while a present
`completed: false` is applied. -/
theorem c10_update_merge_asymmetry_witness :
    (mergedRow rowOfB { title := some "", completed := some false } 7).title
        = rowOfB.title
      ∧ (mergedRow rowOfB { title := some "", completed := some false } 7).completed
        = 0 := by
  have h := c10_update_merge_asymmetry [rowOfB] "B" "x"
    { title := some "", completed := some false } 7 rowOfB rfl
  exact ⟨(h.1 rfl).1, by simpa using h.2.2.2.2.2 false rfl⟩

/-- C7: deleting a record absent from the caller's scope answers `NotFound`
and leaves the table unchanged; deleting an existing record removes exactly
that row and acknowledges success; deleting it again answers `NotFound`. -/
theorem c7_delete_semantics (st : List Row) (uid id : String)
    (hn : (st.map Row.id).Nodup) :
    (statements.getAssignment st id uid = none →
        deleteAssignment st uid id = (st, .error .notFound))
    ∧ (∀ ex : Row, statements.getAssignment st id uid = some ex →
        (deleteAssignment st uid id).2 = .ok ()
        ∧ ex ∈ st
        ∧ ex ∉ (deleteAssignment st uid id).1
        ∧ (∀ r ∈ st, r ≠ ex → r ∈ (deleteAssignment st uid id).1)
        ∧ (∀ r ∈ (deleteAssignment st uid id).1, r ∈ st)
        ∧ (deleteAssignment st uid id).1.length + 1 = st.length
        ∧ (deleteAssignment (deleteAssignment st uid id).1 uid id).2
            = .error .notFound) := by
  constructor
  · intro h
    rw [deleteAssignment, h]
  · intro ex hex
    have hex' : List.find? (fun r => r.id == id && r.user_id == uid) st = some ex :=
      hex
    have hsingle := filter_match_eq_single id uid st hn ex hex'
    have hpex : (ex.id == id && ex.user_id == uid) = true :=
      @List.find?_some _ (fun r => r.id == id && r.user_id == uid) ex st hex'
    have hstate : (deleteAssignment st uid id).1
        = st.filter (fun r => !(r.id == id && r.user_id == uid)) := by
      rw [deleteAssignment, hex]
      rfl
    have hnone : statements.getAssignment
        (st.filter (fun r => !(r.id == id && r.user_id == uid))) id uid
          = none := by
      rw [statements.getAssignment, List.find?_eq_none]
      intro r hr
      rw [List.mem_filter, Bool.not_eq_true'] at hr
      simp [hr.2]
    refine ⟨by rw [deleteAssignment, hex], List.mem_of_find?_eq_some hex',
      ?_, ?_, ?_, ?_, ?_⟩
    · rw [hstate]
      intro hmem
      rw [List.mem_filter] at hmem
      simp [hpex] at hmem
    · intro r hr hne
      rw [hstate, List.mem_filter]
      refine ⟨hr, ?_⟩
      by_cases hq : (r.id == id && r.user_id == uid) = true
      · exfalso
        have : r ∈ st.filter (fun r => r.id == id && r.user_id == uid) :=
          List.mem_filter.mpr ⟨hr, hq⟩
        rw [hsingle, List.mem_singleton] at this
        exact hne this
      · rw [Bool.not_eq_true']
        exact Bool.eq_false_iff.mpr hq
    · intro r hr
      rw [hstate] at hr
      exact List.mem_of_mem_filter hr
    · have hperm := List.filter_append_perm
        (fun r => r.id == id && r.user_id == uid) st
      have hlen := hperm.length_eq
      rw [List.length_append, hsingle] at hlen
      simp only [List.length_singleton] at hlen
      rw [hstate]
      omega
    · rw [hstate, deleteAssignment, hnone]

/-- Witness for C7: deleting user B's only record twice answers `NotFound`
the second time. -/
theorem c7_delete_semantics_witness :
    (deleteAssignment (deleteAssignment [rowOfB] "B" "x").1 "B" "x").2
      = .error ApiError.notFound := by
  have h := c7_delete_semantics [rowOfB] "B" "x" (by decide)
  exact (h.2 rowOfB rfl).2.2.2.2.2.2

/-- C2 (amended): a successful sync is a full replace — provided the items'
resolved ids are pairwise distinct, the user's post-sync set is exactly one
row per payload item in payload order (all pre-existing rows for the user are
gone), and the response is the full resulting list re-read from the table.
Duplicate resolved ids within one payload collapse by last-write-wins, which
is why the distinctness hypothesis is needed. -/
theorem c2_sync_full_replace (st : List Row) (uid : String)
    (items : List Payload) (now : Nat) (rnd : Nat → String)
    (st' : List Row) (outs : List Output)
    (h : syncAssignments st uid (some items) now rnd = (st', .ok outs))
    (hnd : (resolvedIds now rnd items 0).Nodup) :
    st'.filter (fun r => r.user_id == uid) = syncRows uid now rnd items 0
    ∧ (st'.filter (fun r => r.user_id == uid)).length = items.length
    ∧ outs = (statements.getAssignments st' uid).map formatAssignment := by
  rw [syncAssignments] at h
  rcases hs : syncTransaction st uid items now rnd with e | st₂
  · rw [hs] at h
    dsimp only at h
    injection h with h1 h2
    exact absurd h2 (by simp)
  · rw [hs] at h
    dsimp only at h
    injection h with h1 h2
    injection h2 with h2
    subst h1
    rw [syncTransaction] at hs
    have hdisj : ∀ r ∈ statements.deleteAllAssignments st uid,
        r.user_id = uid → r.id ∉ resolvedIds now rnd items 0 := by
      intro r hr hu
      rw [statements.deleteAllAssignments, List.mem_filter] at hr
      simp [hu] at hr
    have hfull := syncLoop_filter uid now rnd items 0
      (statements.deleteAllAssignments st uid) st₂ hs hnd hdisj
    have hbase : (statements.deleteAllAssignments st uid).filter
        (fun r => r.user_id == uid) = [] := by
      rw [statements.deleteAllAssignments, List.filter_filter,
        List.filter_eq_nil_iff]
      intro r hr
      simp
    rw [hbase, List.nil_append] at hfull
    refine ⟨hfull, ?_, h2.symm⟩
    rw [hfull]
    exact syncRows_length uid now rnd items 0

/-- Counterexample to C2 as stated: a successful sync whose two items share
the id "x" leaves the user with a single row, not one row per item. -/
theorem c2_sync_duplicate_id_counterexample :
    (syncAssignments [] "u" (some [dupItemA, dupItemB]) 5 (fun _ => "r")).2.isOk
        = true
    ∧ ((syncAssignments [] "u" (some [dupItemA, dupItemB]) 5
        (fun _ => "r")).1.filter (fun r => r.user_id == "u")).length = 1 :=
  ⟨rfl, rfl⟩

/-- Witness for C2: a user with 3 existing assignments who syncs a 1-item
list has exactly 1 assignment afterwards. -/
theorem c2_sync_full_replace_witness :
    ((syncAssignments threeRows "u" (some [oneItem]) 9 (fun _ => "r")).1.filter
        (fun r => r.user_id == "u")).length = 1 := by
  have h := c2_sync_full_replace threeRows "u" [oneItem] 9 (fun _ => "r")
    ((syncAssignments threeRows "u" (some [oneItem]) 9 (fun _ => "r")).1)
    ((statements.getAssignments
        ((syncAssignments threeRows "u" (some [oneItem]) 9 (fun _ => "r")).1)
        "u").map formatAssignment)
    rfl (by decide)
  simpa using h.2.1

/-- C1 fails on the code: user A's sync with an item whose id equals user B's
assignment id destroys B's row — `INSERT OR REPLACE` resolves the global
primary-key conflict by deleting B's row before inserting A's, so an
operation invoked with A's userId deletes an assignment owned by B. -/
theorem c1_sync_clobbers_other_users_row :
    rowOfB ∈ [rowOfB]
    ∧ rowOfB.user_id = "B"
    ∧ (syncAssignments [rowOfB] "A" (some [collidingItem]) 5
        (fun _ => "r")).2.isOk = true
    ∧ ((syncAssignments [rowOfB] "A" (some [collidingItem]) 5
        (fun _ => "r")).1.filter (fun r => r.user_id == "B")) = [] :=
  ⟨List.mem_singleton.mpr rfl, rfl, rfl, rfl⟩

/-- Counterexample to C5 as stated: creating an assignment whose id equals an
assignment id belonging to a different user does not succeed — the global
primary key rejects it and the handler answers with an error, leaving the
table unchanged. -/
theorem c5_cross_user_id_collision_counterexample :
    (createAssignment [rowOfB] "A" collidingItem 5).2
        = Except.error ApiError.persistenceFailure
    ∧ (createAssignment [rowOfB] "A" collidingItem 5).1 = [rowOfB] :=
  ⟨rfl, rfl⟩

/-- C5 (amended): assignment ids are globally unique, enforced by the primary
key — a validating create fails with a persistence error exactly when its
resolved id equals the id of any existing row, whoever owns it; when the
payload omits the id, the store generates the time-based one. -/
theorem c5_ids_globally_unique (st : List Row) (uid : String) (p : Payload)
    (now : Nat)
    (hv : (jsFalsy p.title || jsFalsy p.subject || jsFalsy p.type
        || jsFalsy p.dueDate) = false) :
    ((createAssignment st uid p now).2 = .error .persistenceFailure
      ↔ st.any (fun r => r.id == (createdRow uid p now).id) = true)
    ∧ (p.id = none → (createdRow uid p now).id = toString now) := by
  constructor
  · by_cases hany : st.any (fun r => r.id == (createdRow uid p now).id) = true
    · rw [createAssignment, if_neg (by simp [hv]),
        statements.insertAssignment, if_pos hany]
      exact iff_of_true rfl hany
    · rw [createAssignment, if_neg (by simp [hv]),
        statements.insertAssignment, if_neg hany]
      exact iff_of_false (by simp) hany
  · intro h
    simp [createdRow, jsOr, h]

/-- Witness for C5 (amended): the spec's create scenario with no id resolves
to the generated time-based id. -/
theorem c5_ids_globally_unique_witness :
    (createdRow "u" essayPayload 5).id = toString 5 :=
  (c5_ids_globally_unique [] "u" essayPayload 5 rfl).2 rfl
